import Mathlib

/-!
Verification of the timeline/playback core of the vimagine video editor.

The definitions below are shallow embeddings of the TypeScript source:
times are rationals (seconds), the JavaScript stable `Array.prototype.sort`
is embedded as `List.insertionSort`, `Math.max(0, ...xs)` as a fold of
`max` with initial value `0`, and the `Math.round(x * 10) / 10` rounding
used by the trim interaction as `roundTo1`.
-/

namespace Vimagine

/-- Media kinds, from the `type` field of `MediaItem` in the source. -/
inductive MediaType where
  | video
  | image
  | audio
deriving DecidableEq, Repr

/-- Embedding of the `MediaItem` interface of the source. -/
structure MediaItem where
  id : String
  type : MediaType
  name : String
  url : String
  thumbnail : Option String
  isPending : Bool
  jobId : Option String
deriving DecidableEq, Repr

/-- Embedding of the `TimelineItem` interface of the source. -/
structure TimelineItem where
  id : String
  mediaId : String
  mediaItem : MediaItem
  track : Nat
  startTime : ℚ
  duration : ℚ
deriving DecidableEq, Repr

/-- Embedding of the `TRACK_CONFIG` record shape of the source. -/
structure TrackConfig where
  VIDEO_IMAGE_TRACKS : List Nat
  AUDIO_TRACKS : List Nat
  TOTAL_TRACKS : Nat
deriving DecidableEq, Repr

/-- The concrete `TRACK_CONFIG` constant of `projects/page.tsx`. -/
def TRACK_CONFIG : TrackConfig :=
  { VIDEO_IMAGE_TRACKS := [0], AUDIO_TRACKS := [1], TOTAL_TRACKS := 2 }

/-- End time of a placed clip, the `startTime + duration` expression of the source. -/
def endOf (i : TimelineItem) : ℚ :=
  i.startTime + i.duration

/-- Outcome of loading media metadata in `getMediaDuration`: either the
`onerror` path fires, or `onloadedmetadata` fires with some duration value
(`loaded 0` stands for a falsy `video.duration`). -/
inductive ProbeOutcome where
  | err
  | loaded (d : ℚ)
deriving DecidableEq, Repr

/-- JavaScript `Math.round (x * 100) / 100`, as applied in `getMediaDuration`. -/
def roundTo2 (q : ℚ) : ℚ :=
  (⌊q * 100 + 1 / 2⌋ : ℚ) / 100

/-- Embedding of `getMediaDuration` of `projects/page.tsx`: videos resolve to
the probed duration (falling back to 10 on error or on a falsy duration),
audio does the same with fallback 15, and images always resolve to 5. The
function is total: no probe failure is surfaced as an error. -/
def getMediaDuration (type : MediaType) (outcome : ProbeOutcome) : ℚ :=
  match type with
  | MediaType.video =>
    match outcome with
    | ProbeOutcome.err => 10
    | ProbeOutcome.loaded d => roundTo2 (if d = 0 then 10 else d)
  | MediaType.audio =>
    match outcome with
    | ProbeOutcome.err => 15
    | ProbeOutcome.loaded d => roundTo2 (if d = 0 then 15 else d)
  | MediaType.image => 5

/-- Embedding of `removeFromTimeline` of `projects/page.tsx`.
The item with the given id is looked up; if absent, the state is returned
unchanged.  Otherwise the item is filtered out, the remaining items on its
track are stably sorted by `startTime` (the JavaScript
`sort((a, b) => a.startTime - b.startTime)`) and repacked contiguously from
0, and the items on the other tracks are kept as they are. -/
def repackFrom (t : ℚ) : List TimelineItem → List TimelineItem
  | [] => []
  | x :: xs => { x with startTime := t } :: repackFrom (t + x.duration) xs

/-- The comparison relation of the JavaScript sort in `removeFromTimeline`. -/
def leStart (a b : TimelineItem) : Prop :=
  a.startTime ≤ b.startTime

instance : DecidableRel leStart := fun a b =>
  inferInstanceAs (Decidable (a.startTime ≤ b.startTime))

instance : IsTotal TimelineItem leStart :=
  ⟨fun a b => le_total a.startTime b.startTime⟩

instance : IsTrans TimelineItem leStart :=
  ⟨fun _ _ _ hab hbc => le_trans hab hbc⟩

/-- Embedding of `removeFromTimeline` of `projects/page.tsx`. -/
def removeFromTimeline (items : List TimelineItem) (timelineItemId : String) :
    List TimelineItem :=
  match items.find? (fun i => i.id == timelineItemId) with
  | none => items
  | some itemToRemove =>
    let remainingItems := items.filter (fun i => i.id != timelineItemId)
    let itemsOnSameTrack :=
      List.insertionSort leStart
        (remainingItems.filter (fun i => i.track == itemToRemove.track))
    let itemsOnOtherTracks :=
      remainingItems.filter (fun i => i.track != itemToRemove.track)
    itemsOnOtherTracks ++ repackFrom 0 itemsOnSameTrack

/-- The claim is about states whose clip ids are pairwise distinct, which is
how the source generates them (`timeline-Date.now()-Math.random()`). -/
def NodupIds (items : List TimelineItem) : Prop :=
  (items.map (fun i => i.id)).Nodup

/-- Contiguity from a given start: the first clip starts at `t` and every
subsequent clip starts at the end of the previous one. -/
def packedFrom : ℚ → List TimelineItem → Prop
  | _, [] => True
  | t, x :: xs => x.startTime = t ∧ packedFrom (t + x.duration) xs

instance instDecidablePackedFrom : (t : ℚ) → (l : List TimelineItem) →
    Decidable (packedFrom t l)
  | _, [] => Decidable.isTrue trivial
  | t, x :: xs =>
    haveI := instDecidablePackedFrom (t + x.duration) xs
    inferInstanceAs (Decidable (x.startTime = t ∧ packedFrom (t + x.duration) xs))

/-- Occupied end time of a track, from `addToTimeline`: the JavaScript
expression `Math.max(0, ...items.filter(track).map(startTime + duration))`. -/
def trackEndTime (items : List TimelineItem) (track : Nat) : ℚ :=
  (items.filter (fun i => i.track == track)).foldl (fun acc i => max acc (endOf i)) 0

/-- Occupied end time as the specification words it: the maximum over the
clips of the track of `startTime + duration`, or `0` if the track is empty.
This definition follows the spec text and is compared with `trackEndTime`,
the embedding of the source expression. -/
def occupiedEndTimeSpec (items : List TimelineItem) (track : Nat) : ℚ :=
  match items.filter (fun i => i.track == track) with
  | [] => 0
  | x :: xs => xs.foldl (fun acc i => max acc (endOf i)) (endOf x)

/-- The `reduce` of `addToTimeline` picking the track with the smallest
occupied end time (keeping the earlier track on ties). -/
def pickBest (items : List TimelineItem) : Nat → List Nat → Nat
  | best, [] => best
  | best, t :: ts =>
    if trackEndTime items t < trackEndTime items best then pickBest items t ts
    else pickBest items best ts

/-- Embedding of `addToTimeline` of `projects/page.tsx`.  The probed media
duration (the awaited result of `getMediaDuration`) and the generated clip
id are passed as arguments.  On an empty compatible-track list the state is
returned unchanged (the configuration of the source always has one track
per class). -/
def addToTimeline (items : List TimelineItem) (tc : TrackConfig)
    (mediaItem : MediaItem) (newId : String) (actualDuration : ℚ) :
    List TimelineItem :=
  let availableTracks :=
    if mediaItem.type = MediaType.audio then tc.AUDIO_TRACKS
    else tc.VIDEO_IMAGE_TRACKS
  match availableTracks with
  | [] => items
  | t :: ts =>
    let best := pickBest items t ts
    items ++ [{ id := newId, mediaId := mediaItem.id, mediaItem := mediaItem,
                track := best, startTime := trackEndTime items best,
                duration := actualDuration }]

/-- Data-model invariant of placed clips: a nonnegative start and a positive
duration. -/
def WellFormed (items : List TimelineItem) : Prop :=
  ∀ i ∈ items, 0 ≤ i.startTime ∧ 0 < i.duration

/-- The `isAudioTrack` field of `getTrackInfo` of `Timeline.tsx`: the visual
track list is consulted first, then the audio one; unknown tracks are not
audio tracks. -/
def getTrackInfoIsAudio (tc : TrackConfig) (trackIndex : Nat) : Bool :=
  if tc.VIDEO_IMAGE_TRACKS.contains trackIndex then false
  else if tc.AUDIO_TRACKS.contains trackIndex then true
  else false

/-- Embedding of the compatibility check and dispatch of `handleDrop` of
`Timeline.tsx`: an accepted drop calls `onAddToTimeline`, a rejected one
only logs a warning and leaves the state alone. -/
def handleDrop (tc : TrackConfig) (items : List TimelineItem)
    (mediaItem : MediaItem) (newId : String) (actualDuration : ℚ)
    (trackIndex : Nat) : List TimelineItem :=
  let isAudioTrack := getTrackInfoIsAudio tc trackIndex
  let isAudioItem := mediaItem.type = MediaType.audio
  let isVisualItem :=
    mediaItem.type = MediaType.image ∨ mediaItem.type = MediaType.video
  if (isAudioTrack = true ∧ isAudioItem) ∨ (isAudioTrack = false ∧ isVisualItem)
  then addToTimeline items tc mediaItem newId actualDuration
  else items

/-- Trim handles of `Timeline.tsx`. -/
inductive Handle where
  | left
  | right
deriving DecidableEq, Repr

/-- JavaScript `Math.round (x * 10) / 10`, as applied when committing a
resize in `Timeline.tsx`. -/
def roundTo1 (q : ℚ) : ℚ :=
  (⌊q * 10 + 1 / 2⌋ : ℚ) / 10

/-- The fixed `timelineDuration` constant of the resize logic of
`Timeline.tsx`. -/
def timelineDuration : ℚ := 60

/-- Embedding of the resize branch of `handleMouseMove` of `Timeline.tsx`:
given the original geometry of the clip and the pointer delta converted to
seconds, it returns the `(startTime, duration)` pair passed to
`onUpdateTimelineItem`. -/
def resizeUpdate (originalStartTime originalDuration deltaTime : ℚ)
    (handle : Handle) : ℚ × ℚ :=
  match handle with
  | Handle.left =>
    let proposedStartTime := max 0 (originalStartTime + deltaTime)
    let timeDiff := proposedStartTime - originalStartTime
    let newStartTime := proposedStartTime
    let newDuration := max (1 / 2) (originalDuration - timeDiff)
    (roundTo1 newStartTime, roundTo1 newDuration)
  | Handle.right =>
    let newStartTime := originalStartTime
    let grown := max (1 / 2) (originalDuration + deltaTime)
    let newDuration :=
      if timelineDuration < newStartTime + grown then
        timelineDuration - newStartTime
      else grown
    (roundTo1 newStartTime, roundTo1 newDuration)

/-- The `calculateTotalDuration` helper of `Timeline.tsx`:
`Math.max(60, ...items.map(startTime + duration))`. -/
def calculateTotalDuration (items : List TimelineItem) : ℚ :=
  items.foldl (fun acc i => max acc (endOf i)) 60

/-- The `calculateContentEndTime` helper of `Timeline.tsx`: `0` for an empty
timeline, otherwise `Math.max(...items.map(startTime + duration))`. -/
def calculateContentEndTime (items : List TimelineItem) : ℚ :=
  match items with
  | [] => 0
  | x :: xs => xs.foldl (fun acc i => max acc (endOf i)) (endOf x)

/-- Embedding of the pointer-to-time mapping shared by the playhead-drag
branch of `handleMouseMove` and by `handleTimelineClick` of `Timeline.tsx`.
`mouseX` is the pixel position relative to the start of the track area
(`clientX - rect.left - TRACK_LABELS_WIDTH`) and `availableWidth` is
`rect.width - TRACK_LABELS_WIDTH`. -/
def pointerToTime (items : List TimelineItem) (availableWidth mouseX : ℚ) : ℚ :=
  let clampedMouseX := max 0 (min availableWidth mouseX)
  let totalDuration := calculateTotalDuration items
  let calculatedTime := clampedMouseX / availableWidth * totalDuration
  let contentEndTime := calculateContentEndTime items
  max 0 (min contentEndTime calculatedTime)

/-- Interval membership used by the active-clip lookup of `VideoPreview`:
`currentTime >= startTime && currentTime < startTime + duration`. -/
def inInterval (i : TimelineItem) (t : ℚ) : Prop :=
  i.startTime ≤ t ∧ t < endOf i

instance (i : TimelineItem) (t : ℚ) : Decidable (inInterval i t) :=
  inferInstanceAs (Decidable (i.startTime ≤ t ∧ t < endOf i))

/-- Embedding of the active-clip lookup of `VideoPreview`: first clip of the
list containing the time, else the last clip of the list if the time is
within 0.1 seconds of its end, else none. -/
def findCurrentItem (l : List TimelineItem) (t : ℚ) : Option TimelineItem :=
  match l.find? (fun i => decide (inInterval i t)) with
  | some i => some i
  | none =>
    match l.getLast? with
    | none => none
    | some last => if |t - endOf last| ≤ 1 / 10 then some last else none

/-- The sorted visual-track list of `VideoPreview`
(`filter(track === 0).sort(by startTime)`). -/
def visualItemsOf (items : List TimelineItem) : List TimelineItem :=
  List.insertionSort leStart (items.filter (fun i => i.track == 0))

/-- The sorted audio-track list of `VideoPreview`
(`filter(track === 1).sort(by startTime)`). -/
def audioItemsOf (items : List TimelineItem) : List TimelineItem :=
  List.insertionSort leStart (items.filter (fun i => i.track == 1))

/-- The active visual clip of `VideoPreview` at a virtual time. -/
def currentVisualItemOf (items : List TimelineItem) (t : ℚ) :
    Option TimelineItem :=
  findCurrentItem (visualItemsOf items) t

/-- The active audio clip of `VideoPreview` at a virtual time. -/
def currentAudioItemOf (items : List TimelineItem) (t : ℚ) :
    Option TimelineItem :=
  findCurrentItem (audioItemsOf items) t

/-- Status responses of the composition render service, as read by
`pollForCompositionComplete`. -/
inductive ComposeStatus where
  | processing
  | succeeded (downloadUrl : String)
  | failed (error : Option String)
deriving DecidableEq, Repr

/-- Outcome of the export poll loop: either a download of the returned URL
is started, or the loop fails with a message (thrown error in the source). -/
inductive PollResult where
  | download (url : String)
  | failure (msg : String)
deriving DecidableEq, Repr

/-- The `maxAttempts` constant of `pollForCompositionComplete`. -/
def maxAttempts : Nat := 24

/-- The fixed wait between two status checks of
`pollForCompositionComplete`, in milliseconds. -/
def pollIntervalMs : Nat := 5000

/-- The while loop of `pollForCompositionComplete`: `i` is the index of the
next status response consumed and the second argument the number of
attempts left. -/
def pollLoop (statuses : Nat → ComposeStatus) : Nat → Nat → PollResult
  | _, 0 => PollResult.failure "Video composition timed out"
  | i, r + 1 =>
    match statuses i with
    | ComposeStatus.succeeded url => PollResult.download url
    | ComposeStatus.failed e =>
      PollResult.failure (e.getD "Video composition failed")
    | ComposeStatus.processing => pollLoop statuses (i + 1) r

/-- Embedding of `pollForCompositionComplete` of `VideoPreview`: at most
`maxAttempts` status checks starting from the first response. -/
def pollForCompositionComplete (statuses : Nat → ComposeStatus) : PollResult :=
  pollLoop statuses 0 maxAttempts

/-- The pending placeholder `MediaItem` built by `handleSendPrompt` of
`ChatInterface` when a generation job starts. -/
def mkPendingMediaItem (pendingJobId : String) (type : MediaType)
    (name : String) : MediaItem :=
  { id := pendingJobId, type := type, name := name,
    url := "data:image/svg+xml;base64,placeholder", thumbnail := none,
    isPending := true, jobId := some pendingJobId }

/-- The completed `MediaItem` built by `handleSendPrompt` on generation
success; the source keeps the id of the pending item. -/
def mkCompletedMediaItem (pendingJobId : String) (type : MediaType)
    (name resultUrl apiJobId : String) : MediaItem :=
  { id := pendingJobId, type := type, name := name, url := resultUrl,
    thumbnail := if type = MediaType.image then some resultUrl else none,
    isPending := false, jobId := some apiJobId }

/-- The catalog update of `handleSendPrompt` on generation success:
`library.map(item => item.id === pendingJobId ? completedMediaItem : item)`. -/
def resolvePending (library : List MediaItem) (pendingJobId : String)
    (completed : MediaItem) : List MediaItem :=
  library.map (fun item => if item.id = pendingJobId then completed else item)

/-- Sample media item used by concrete witnesses. -/
def sampleMediaItem (n : String) (ty : MediaType) : MediaItem :=
  { id := n, type := ty, name := n, url := n, thumbnail := none,
    isPending := false, jobId := none }

/-- Sample placed clip used by concrete witnesses. -/
def sampleClip (n : String) (tr : Nat) (s d : ℚ) : TimelineItem :=
  { id := n, mediaId := n, mediaItem := sampleMediaItem n MediaType.video,
    track := tr, startTime := s, duration := d }

/-- Claim C10: removing an id that matches no placed clip leaves the whole
timeline exactly unchanged; in particular no gap-closure repacking runs. -/
theorem removeFromTimeline_missing_id (items : List TimelineItem)
    (timelineItemId : String) (h : ∀ i ∈ items, i.id ≠ timelineItemId) :
    removeFromTimeline items timelineItemId = items := by
  have hf : items.find? (fun i => i.id == timelineItemId) = none :=
    List.find?_eq_none.mpr (fun x hx => by simpa using h x hx)
  simp [removeFromTimeline, hf]

/-- Witness for C10 at a concrete one-clip timeline and a missing id. -/
theorem removeFromTimeline_missing_id_witness :
    (∀ i ∈ [sampleClip "A" 0 0 4], i.id ≠ "Z") ∧
    removeFromTimeline [sampleClip "A" 0 0 4] "Z" = [sampleClip "A" 0 0 4] :=
  ⟨by decide, removeFromTimeline_missing_id _ _ (by decide)⟩

/-- Claim C7: when the duration probe cannot determine a real duration
(metadata error, or a falsy loaded duration) the fallback is 10 seconds for
video and 15 for audio, and images always get the fixed 5 seconds; the
embedding is a total function, so no probe failure surfaces as an error. -/
theorem getMediaDuration_fallback :
    getMediaDuration MediaType.video ProbeOutcome.err = 10 ∧
    getMediaDuration MediaType.audio ProbeOutcome.err = 15 ∧
    getMediaDuration MediaType.video (ProbeOutcome.loaded 0) = 10 ∧
    getMediaDuration MediaType.audio (ProbeOutcome.loaded 0) = 15 ∧
    ∀ outcome, getMediaDuration MediaType.image outcome = 5 := by
  have h10 : ⌊(10 : ℚ) * 100 + 1 / 2⌋ = 1000 := by
    apply Int.floor_eq_iff.mpr
    constructor <;> norm_num
  have h15 : ⌊(15 : ℚ) * 100 + 1 / 2⌋ = 1500 := by
    apply Int.floor_eq_iff.mpr
    constructor <;> norm_num
  refine ⟨rfl, rfl, ?_, ?_, fun outcome => rfl⟩
  · show roundTo2 (if (0 : ℚ) = 0 then 10 else 0) = 10
    rw [if_pos rfl, roundTo2, h10]
    norm_num
  · show roundTo2 (if (0 : ℚ) = 0 then 15 else 0) = 15
    rw [if_pos rfl, roundTo2, h15]
    norm_num

/-- Helper for C6: a run of processing responses exhausting the remaining
attempts ends in the timeout failure. -/
lemma pollLoop_all_processing (statuses : Nat → ComposeStatus) :
    ∀ (r i : Nat), (∀ j, j < r → statuses (i + j) = ComposeStatus.processing) →
      pollLoop statuses i r = PollResult.failure "Video composition timed out" := by
  intro r
  induction r with
  | zero => intro i _; rfl
  | succ r ih =>
    intro i h
    have h0 : statuses i = ComposeStatus.processing := by
      simpa using h 0 (Nat.succ_pos r)
    have hrec := ih (i + 1) (fun j hj => by
      have e : i + 1 + j = i + (j + 1) := by omega
      rw [e]; exact h (j + 1) (by omega))
    simp [pollLoop, h0, hrec]

/-- Helper for C6: the loop skips over a run of processing responses. -/
lemma pollLoop_skip (statuses : Nat → ComposeStatus) :
    ∀ (k r i : Nat), k ≤ r →
      (∀ j, j < k → statuses (i + j) = ComposeStatus.processing) →
      pollLoop statuses i r = pollLoop statuses (i + k) (r - k) := by
  intro k
  induction k with
  | zero => intro r i _ _; simp
  | succ k ih =>
    intro r i hk h
    obtain ⟨r', rfl⟩ : ∃ r', r = r' + 1 := ⟨r - 1, by omega⟩
    have h0 : statuses i = ComposeStatus.processing := by
      simpa using h 0 (by omega)
    have step : pollLoop statuses i (r' + 1) = pollLoop statuses (i + 1) r' := by
      simp [pollLoop, h0]
    rw [step, ih r' (i + 1) (by omega) (fun j hj => by
      have e : i + 1 + j = i + (j + 1) := by omega
      rw [e]; exact h (j + 1) (by omega))]
    have e1 : i + 1 + k = i + (k + 1) := by omega
    have e2 : r' - k = r' + 1 - (k + 1) := by omega
    rw [e1, e2]

/-- Claim C6: the export poll loop performs at most 24 status checks at the
fixed 5 second interval; 24 consecutive processing responses end in the
timeout failure with no download, a failed status ends in a failure carrying
the server-supplied message, and a succeeded status downloads the returned
URL. -/
theorem pollForCompositionComplete_spec (statuses : Nat → ComposeStatus)
    (k : Nat) (url msg : String) :
    ((∀ i, i < maxAttempts → statuses i = ComposeStatus.processing) →
      pollForCompositionComplete statuses =
        PollResult.failure "Video composition timed out") ∧
    (k < maxAttempts → (∀ i, i < k → statuses i = ComposeStatus.processing) →
      statuses k = ComposeStatus.succeeded url →
      pollForCompositionComplete statuses = PollResult.download url) ∧
    (k < maxAttempts → (∀ i, i < k → statuses i = ComposeStatus.processing) →
      statuses k = ComposeStatus.failed (some msg) →
      pollForCompositionComplete statuses = PollResult.failure msg) ∧
    maxAttempts = 24 ∧ pollIntervalMs = 5000 := by
  have hma : maxAttempts = 24 := rfl
  refine ⟨?_, ?_, ?_, rfl, rfl⟩
  · intro h
    exact pollLoop_all_processing statuses maxAttempts 0 (fun j hj => by
      simpa using h j hj)
  · intro hk h hs
    rw [pollForCompositionComplete,
      pollLoop_skip statuses k maxAttempts 0 (le_of_lt hk)
        (fun j hj => by simpa using h j hj)]
    obtain ⟨m, hm⟩ : ∃ m, maxAttempts - k = m + 1 := ⟨maxAttempts - k - 1, by omega⟩
    rw [hm]
    simp [pollLoop, hs]
  · intro hk h hs
    rw [pollForCompositionComplete,
      pollLoop_skip statuses k maxAttempts 0 (le_of_lt hk)
        (fun j hj => by simpa using h j hj)]
    obtain ⟨m, hm⟩ : ∃ m, maxAttempts - k = m + 1 := ⟨maxAttempts - k - 1, by omega⟩
    rw [hm]
    simp [pollLoop, hs]

/-- Witness for C6: the all-processing run ends in the timeout failure. -/
theorem pollForCompositionComplete_spec_witness :
    pollForCompositionComplete (fun _ => ComposeStatus.processing) =
      PollResult.failure "Video composition timed out" :=
  (pollForCompositionComplete_spec (fun _ => ComposeStatus.processing)
    0 "" "").1 (fun _ _ => rfl)

/-- Counterexample for C3: a right-handle resize of a clip starting at 60
seconds (reachable by placing, say, seven 10 second videos) is clipped by
`timelineDuration - startTime` to a duration of 0, below the 0.5 floor. -/
theorem resizeUpdate_floor_counterexample :
    (resizeUpdate 60 10 0 Handle.right).2 < 1 / 2 := by
  have hmax : max ((1 : ℚ) / 2) (10 + 0) = 10 := by
    rw [max_eq_right] <;> norm_num
  have hfl : ⌊((60 : ℚ) - 60) * 10 + 1 / 2⌋ = 0 := by
    apply Int.floor_eq_iff.mpr
    constructor <;> norm_num
  simp only [resizeUpdate, timelineDuration, hmax, roundTo1]
  rw [if_pos (by norm_num : (60 : ℚ) < 60 + 10), hfl]
  norm_num

/-- Helper for C3: the one-decimal rounding keeps values at least 0.5. -/
lemma roundTo1_half_le {q : ℚ} (h : 1 / 2 ≤ q) : 1 / 2 ≤ roundTo1 q := by
  have h5 : (5 : ℤ) ≤ ⌊q * 10 + 1 / 2⌋ := by
    rw [Int.le_floor]
    push_cast
    linarith
  have h5q : (5 : ℚ) ≤ (⌊q * 10 + 1 / 2⌋ : ℚ) := by exact_mod_cast h5
  rw [roundTo1]
  linarith

/-- Claim C3 as amended: a resize never produces a duration below the 0.5
second floor, except through the right handle on a clip whose start time
exceeds `timelineDuration - 0.5` (59.5 seconds), where the source clips the
duration to `timelineDuration - startTime`. -/
theorem resizeUpdate_duration_floor (s d delta : ℚ) (handle : Handle)
    (h : handle = Handle.left ∨ s ≤ timelineDuration - 1 / 2) :
    1 / 2 ≤ (resizeUpdate s d delta handle).2 := by
  cases handle with
  | left =>
    simp only [resizeUpdate]
    exact roundTo1_half_le (le_max_left _ _)
  | right =>
    rcases h with h | h
    · exact Handle.noConfusion h
    · simp only [resizeUpdate]
      apply roundTo1_half_le
      split_ifs with hclip
      · linarith
      · exact le_max_left _ _

/-- Witness for C3: a left-handle resize with a huge positive delta still
yields the 0.5 second floor. -/
theorem resizeUpdate_duration_floor_witness :
    (Handle.left = Handle.left ∨ (0 : ℚ) ≤ timelineDuration - 1 / 2) ∧
    1 / 2 ≤ (resizeUpdate 0 10 100 Handle.left).2 :=
  ⟨Or.inl rfl, resizeUpdate_duration_floor 0 10 100 Handle.left (Or.inl rfl)⟩

/-- Claim C8: the pending placeholder and its resolved replacement carry the
same id, the resolution step preserves the id sequence of the whole catalog,
every item with a different id survives unchanged, and nothing new appears
besides the completed item. -/
theorem resolvePending_identity (library : List MediaItem)
    (pendingJobId : String) (type : MediaType)
    (name resultUrl apiJobId : String) :
    (mkPendingMediaItem pendingJobId type name).id = pendingJobId ∧
    (mkCompletedMediaItem pendingJobId type name resultUrl apiJobId).id =
      pendingJobId ∧
    (resolvePending library pendingJobId
        (mkCompletedMediaItem pendingJobId type name resultUrl apiJobId)).map
        (fun i => i.id) = library.map (fun i => i.id) ∧
    (∀ item ∈ library, item.id ≠ pendingJobId →
      item ∈ resolvePending library pendingJobId
        (mkCompletedMediaItem pendingJobId type name resultUrl apiJobId)) ∧
    (∀ item ∈ resolvePending library pendingJobId
        (mkCompletedMediaItem pendingJobId type name resultUrl apiJobId),
      item = mkCompletedMediaItem pendingJobId type name resultUrl apiJobId ∨
      item ∈ library) := by
  refine ⟨rfl, rfl, ?_, ?_, ?_⟩
  · rw [resolvePending, List.map_map]
    apply List.map_congr_left
    intro a _
    by_cases hid : a.id = pendingJobId
    · simp [Function.comp, hid, mkCompletedMediaItem]
    · simp [Function.comp, hid]
  · intro item hmem hne
    rw [resolvePending]
    exact List.mem_map.mpr ⟨item, hmem, by simp [hne]⟩
  · intro item hmem
    rw [resolvePending] at hmem
    obtain ⟨a, ha, hfa⟩ := List.mem_map.mp hmem
    by_cases hid : a.id = pendingJobId
    · left; rw [← hfa]; simp [hid]
    · right; rw [← hfa]; simpa [hid] using ha

/-- Witness for C8: the id sequence of a concrete two-item catalog survives
the pending-to-ready transition. -/
theorem resolvePending_identity_witness :
    (resolvePending
        [sampleMediaItem "p" MediaType.image, sampleMediaItem "q" MediaType.video]
        "p" (mkCompletedMediaItem "p" MediaType.image "n" "u" "j")).map
      (fun i => i.id) =
      [sampleMediaItem "p" MediaType.image,
        sampleMediaItem "q" MediaType.video].map (fun i => i.id) :=
  (resolvePending_identity
    [sampleMediaItem "p" MediaType.image, sampleMediaItem "q" MediaType.video]
    "p" MediaType.image "n" "u" "j").2.2.1

/-- Claim C9: dropping a media item on a track of the wrong class — an audio
item on a visual track, or a video or image item on an audio track — is
rejected and the timeline state is returned unchanged. -/
theorem handleDrop_rejects_mismatch (tc : TrackConfig)
    (items : List TimelineItem) (mediaItem : MediaItem)
    (newId : String) (actualDuration : ℚ) (trackIndex : Nat)
    (h : (mediaItem.type = MediaType.audio ∧
            trackIndex ∈ tc.VIDEO_IMAGE_TRACKS) ∨
         ((mediaItem.type = MediaType.video ∨ mediaItem.type = MediaType.image) ∧
            trackIndex ∈ tc.AUDIO_TRACKS ∧
            trackIndex ∉ tc.VIDEO_IMAGE_TRACKS)) :
    handleDrop tc items mediaItem newId actualDuration trackIndex = items := by
  rcases h with ⟨hty, hmem⟩ | ⟨hty, hmem, hnmem⟩
  · simp [handleDrop, getTrackInfoIsAudio, hty, hmem]
  · rcases hty with hty | hty <;>
      simp [handleDrop, getTrackInfoIsAudio, hty, hmem, hnmem]

/-- Witness for C9: an audio item dropped on the visual track of the
concrete track configuration leaves a concrete timeline unchanged. -/
theorem handleDrop_rejects_mismatch_witness :
    (((sampleMediaItem "S" MediaType.audio).type = MediaType.audio ∧
        0 ∈ TRACK_CONFIG.VIDEO_IMAGE_TRACKS) ∨
      (((sampleMediaItem "S" MediaType.audio).type = MediaType.video ∨
          (sampleMediaItem "S" MediaType.audio).type = MediaType.image) ∧
        0 ∈ TRACK_CONFIG.AUDIO_TRACKS ∧ 0 ∉ TRACK_CONFIG.VIDEO_IMAGE_TRACKS)) ∧
    handleDrop TRACK_CONFIG [sampleClip "A" 0 0 4]
      (sampleMediaItem "S" MediaType.audio) "new" 7 0 = [sampleClip "A" 0 0 4] :=
  ⟨Or.inl ⟨rfl, by decide⟩,
    handleDrop_rejects_mismatch TRACK_CONFIG [sampleClip "A" 0 0 4]
      (sampleMediaItem "S" MediaType.audio) "new" 7 0 (Or.inl ⟨rfl, by decide⟩)⟩

/-- Helper for C2: the reduce of `addToTimeline` returns one of the
candidate tracks. -/
lemma pickBest_mem (items : List TimelineItem) :
    ∀ (b : Nat) (ts : List Nat), pickBest items b ts ∈ b :: ts := by
  intro b ts
  induction ts generalizing b with
  | nil => simp [pickBest]
  | cons t ts ih =>
    rw [pickBest]
    split
    · exact List.mem_cons_of_mem _ (ih t)
    · rcases List.mem_cons.mp (ih b) with h | h
      · rw [h]; exact List.mem_cons_self _ _
      · exact List.mem_cons_of_mem _ (List.mem_cons_of_mem _ h)

/-- Helper for C2: the reduce of `addToTimeline` picks a track of minimal
occupied end time. -/
lemma pickBest_min (items : List TimelineItem) :
    ∀ (b : Nat) (ts : List Nat), ∀ u ∈ b :: ts,
      trackEndTime items (pickBest items b ts) ≤ trackEndTime items u := by
  intro b ts
  induction ts generalizing b with
  | nil =>
    intro u hu
    rcases List.mem_cons.mp hu with rfl | h
    · simp [pickBest]
    · cases h
  | cons t ts ih =>
    intro u hu
    by_cases hlt : trackEndTime items t < trackEndTime items b
    · rw [pickBest, if_pos hlt]
      rcases List.mem_cons.mp hu with rfl | hu'
      · exact le_trans (ih t t (List.mem_cons_self _ _)) (le_of_lt hlt)
      · exact ih t u hu'
    · rw [pickBest, if_neg hlt]
      rcases List.mem_cons.mp hu with rfl | hu'
      · exact ih u u (List.mem_cons_self _ _)
      · rcases List.mem_cons.mp hu' with rfl | hu''
        · exact le_trans (ih b b (List.mem_cons_self _ _)) (not_lt.mp hlt)
        · exact ih b u (List.mem_cons_of_mem _ hu'')

/-- Helper for C2: on well-formed states the source expression
`Math.max(0, ...ends)` agrees with the occupied end time as the spec words
it (max over the clips of the track, or 0 when empty). -/
lemma trackEndTime_eq_spec (items : List TimelineItem) (tr : Nat)
    (hinv : WellFormed items) :
    trackEndTime items tr = occupiedEndTimeSpec items tr := by
  rw [trackEndTime, occupiedEndTimeSpec]
  cases hfil : items.filter (fun i => i.track == tr) with
  | nil => simp
  | cons x xs =>
    have hx : x ∈ items :=
      List.mem_of_mem_filter (p := fun i => i.track == tr)
        (by rw [hfil]; exact List.mem_cons_self _ _)
    have hpos : 0 < endOf x := by
      obtain ⟨h1, h2⟩ := hinv x hx
      rw [endOf]; linarith
    simp only [List.foldl_cons]
    rw [max_eq_right (le_of_lt hpos)]

/-- Claim C2: placing a media item appends exactly one clip; the clip lands
on a compatible track of minimal occupied end time, starts at that occupied
end time (which on well-formed states equals the spec reading: max clip end
of the track, or 0 when empty), and carries the probed duration; no
existing clip is modified. -/
theorem addToTimeline_spec (items : List TimelineItem) (tc : TrackConfig)
    (mediaItem : MediaItem) (newId : String) (actualDuration : ℚ)
    (t : Nat) (ts : List Nat)
    (ht : (if mediaItem.type = MediaType.audio then tc.AUDIO_TRACKS
           else tc.VIDEO_IMAGE_TRACKS) = t :: ts)
    (hinv : WellFormed items) :
    addToTimeline items tc mediaItem newId actualDuration =
      items ++ [{ id := newId, mediaId := mediaItem.id,
                  mediaItem := mediaItem, track := pickBest items t ts,
                  startTime := trackEndTime items (pickBest items t ts),
                  duration := actualDuration }] ∧
    pickBest items t ts ∈ t :: ts ∧
    (∀ u ∈ t :: ts,
      trackEndTime items (pickBest items t ts) ≤ trackEndTime items u) ∧
    trackEndTime items (pickBest items t ts) =
      occupiedEndTimeSpec items (pickBest items t ts) := by
  refine ⟨?_, pickBest_mem items t ts, pickBest_min items t ts,
    trackEndTime_eq_spec items _ hinv⟩
  rw [addToTimeline, ht]

/-- Witness for C2: an audio item placed on the concrete two-track state
lands on the audio track at the occupied end time 8. -/
theorem addToTimeline_spec_witness :
    ((if (sampleMediaItem "M" MediaType.audio).type = MediaType.audio
      then TRACK_CONFIG.AUDIO_TRACKS else TRACK_CONFIG.VIDEO_IMAGE_TRACKS) =
        1 :: []) ∧
    WellFormed [sampleClip "A" 0 0 4, sampleClip "D" 1 0 8] ∧
    addToTimeline [sampleClip "A" 0 0 4, sampleClip "D" 1 0 8] TRACK_CONFIG
        (sampleMediaItem "M" MediaType.audio) "new" 7 =
      [sampleClip "A" 0 0 4, sampleClip "D" 1 0 8] ++
        [{ id := "new", mediaId := (sampleMediaItem "M" MediaType.audio).id,
           mediaItem := sampleMediaItem "M" MediaType.audio,
           track := pickBest [sampleClip "A" 0 0 4, sampleClip "D" 1 0 8] 1 [],
           startTime := trackEndTime
             [sampleClip "A" 0 0 4, sampleClip "D" 1 0 8]
             (pickBest [sampleClip "A" 0 0 4, sampleClip "D" 1 0 8] 1 []),
           duration := 7 }] := by
  have hinv : WellFormed [sampleClip "A" 0 0 4, sampleClip "D" 1 0 8] := by
    intro i hi
    fin_cases hi <;> exact ⟨by norm_num [sampleClip], by norm_num [sampleClip]⟩
  exact ⟨rfl, hinv,
    (addToTimeline_spec [sampleClip "A" 0 0 4, sampleClip "D" 1 0 8]
      TRACK_CONFIG (sampleMediaItem "M" MediaType.audio) "new" 7 1 [] rfl
      hinv).1⟩

/-- Helper for C5 and C2: the running maximum of clip end times never drops
below its initial value. -/
lemma le_foldlMaxEnd (xs : List TimelineItem) :
    ∀ a : ℚ, a ≤ xs.foldl (fun acc i => max acc (endOf i)) a := by
  induction xs with
  | nil => intro a; simp
  | cons x xs ih =>
    intro a
    calc a ≤ max a (endOf x) := le_max_left _ _
    _ ≤ xs.foldl (fun acc i => max acc (endOf i)) (max a (endOf x)) := ih _
    _ = (x :: xs).foldl (fun acc i => max acc (endOf i)) a := by
        rw [List.foldl_cons]

/-- Helper for C5: on well-formed states the content end time is
nonnegative. -/
lemma calculateContentEndTime_nonneg (items : List TimelineItem)
    (hinv : WellFormed items) : 0 ≤ calculateContentEndTime items := by
  cases items with
  | nil => exact le_rfl
  | cons x xs =>
    have hx : 0 < endOf x := by
      obtain ⟨h1, h2⟩ := hinv x (List.mem_cons_self _ _)
      rw [endOf]; linarith
    show (0 : ℚ) ≤ xs.foldl (fun acc i => max acc (endOf i)) (endOf x)
    exact le_trans (le_of_lt hx) (le_foldlMaxEnd xs (endOf x))

/-- Claim C5: the pointer-to-time mapping of playhead drags and ruler
clicks equals the clamped pixel offset over the available width times the
total duration, clamped to the interval from 0 to the content end time; the
result never exceeds the end of the furthest clip, and is 0 on an empty
timeline. -/
theorem pointerToTime_spec (items : List TimelineItem)
    (availableWidth mouseX : ℚ) (hw : 0 < availableWidth)
    (hinv : WellFormed items) :
    pointerToTime items availableWidth mouseX =
      max 0 (min (calculateContentEndTime items)
        (max 0 (min availableWidth mouseX) / availableWidth *
          calculateTotalDuration items)) ∧
    0 ≤ pointerToTime items availableWidth mouseX ∧
    pointerToTime items availableWidth mouseX ≤
      calculateContentEndTime items ∧
    (items = [] → pointerToTime items availableWidth mouseX = 0) := by
  refine ⟨rfl, le_max_left _ _, ?_, ?_⟩
  · exact max_le (calculateContentEndTime_nonneg items hinv)
      (min_le_left _ _)
  · intro hnil
    subst hnil
    rw [pointerToTime]
    exact le_antisymm (max_le le_rfl (min_le_left _ _)) (le_max_left _ _)

/-- Witness for C5 at a concrete state: the mapped time is clamped to the
content end time 12. -/
theorem pointerToTime_spec_witness :
    (0 : ℚ) < 100 ∧ WellFormed [sampleClip "A" 0 0 4, sampleClip "C" 0 4 8] ∧
    pointerToTime [sampleClip "A" 0 0 4, sampleClip "C" 0 4 8] 100 50 ≤
      calculateContentEndTime [sampleClip "A" 0 0 4, sampleClip "C" 0 4 8] := by
  have hinv : WellFormed [sampleClip "A" 0 0 4, sampleClip "C" 0 4 8] := by
    intro i hi
    fin_cases hi <;> exact ⟨by norm_num [sampleClip], by norm_num [sampleClip]⟩
  exact ⟨by norm_num, hinv,
    (pointerToTime_spec [sampleClip "A" 0 0 4, sampleClip "C" 0 4 8] 100 50
      (by norm_num) hinv).2.2.1⟩

/-- Helper for C4: when some clip of the list contains the time, the lookup
returns a clip containing the time. -/
lemma findCurrentItem_of_exists (l : List TimelineItem) (t : ℚ)
    (h : ∃ i ∈ l, inInterval i t) :
    ∃ i, findCurrentItem l t = some i ∧ i ∈ l ∧ inInterval i t := by
  cases hf : l.find? (fun i => decide (inInterval i t)) with
  | none =>
    obtain ⟨i, hi, hint⟩ := h
    have := List.find?_eq_none.mp hf i hi
    simp [hint] at this
  | some j =>
    refine ⟨j, ?_, List.mem_of_find?_eq_some hf, ?_⟩
    · simp [findCurrentItem, hf]
    · have := List.find?_some hf
      simpa using this

/-- Helper for C4: when no clip of the list contains the time, the lookup
falls back to the last clip under the 0.1 second tolerance. -/
lemma findCurrentItem_of_none (l : List TimelineItem) (t : ℚ)
    (h : ∀ i ∈ l, ¬ inInterval i t) :
    findCurrentItem l t =
      match l.getLast? with
      | none => none
      | some last => if |t - endOf last| ≤ 1 / 10 then some last else none := by
  have hf : l.find? (fun i => decide (inInterval i t)) = none :=
    List.find?_eq_none.mpr (fun x hx => by simpa using h x hx)
  simp [findCurrentItem, hf]

/-- Claim C4: at a virtual time the active visual clip is a clip whose
half-open interval contains the time; when no visual clip contains the time
the last visual clip (in start-time order) is active exactly when the time
is within 0.1 seconds of its end, and otherwise no visual clip is active.
The identical rule resolves the active audio clip independently. -/
theorem activeClip_resolution (items : List TimelineItem) (t : ℚ)
    (lastV lastA : TimelineItem) :
    ((∃ i ∈ visualItemsOf items, inInterval i t) →
      ∃ i, currentVisualItemOf items t = some i ∧
        i ∈ visualItemsOf items ∧ inInterval i t) ∧
    ((∀ i ∈ visualItemsOf items, ¬ inInterval i t) →
      (visualItemsOf items).getLast? = some lastV →
      ((|t - endOf lastV| ≤ 1 / 10 →
          currentVisualItemOf items t = some lastV) ∧
        (¬ |t - endOf lastV| ≤ 1 / 10 →
          currentVisualItemOf items t = none))) ∧
    ((∀ i ∈ visualItemsOf items, ¬ inInterval i t) →
      (visualItemsOf items).getLast? = none →
      currentVisualItemOf items t = none) ∧
    ((∃ i ∈ audioItemsOf items, inInterval i t) →
      ∃ i, currentAudioItemOf items t = some i ∧
        i ∈ audioItemsOf items ∧ inInterval i t) ∧
    ((∀ i ∈ audioItemsOf items, ¬ inInterval i t) →
      (audioItemsOf items).getLast? = some lastA →
      ((|t - endOf lastA| ≤ 1 / 10 →
          currentAudioItemOf items t = some lastA) ∧
        (¬ |t - endOf lastA| ≤ 1 / 10 →
          currentAudioItemOf items t = none))) ∧
    ((∀ i ∈ audioItemsOf items, ¬ inInterval i t) →
      (audioItemsOf items).getLast? = none →
      currentAudioItemOf items t = none) := by
  refine ⟨?_, ?_, ?_, ?_, ?_, ?_⟩
  · intro h
    exact findCurrentItem_of_exists _ _ h
  · intro h hlast
    rw [currentVisualItemOf, findCurrentItem_of_none _ _ h, hlast]
    exact ⟨fun htol => if_pos htol, fun htol => if_neg htol⟩
  · intro h hlast
    rw [currentVisualItemOf, findCurrentItem_of_none _ _ h, hlast]
  · intro h
    exact findCurrentItem_of_exists _ _ h
  · intro h hlast
    rw [currentAudioItemOf, findCurrentItem_of_none _ _ h, hlast]
    exact ⟨fun htol => if_pos htol, fun htol => if_neg htol⟩
  · intro h hlast
    rw [currentAudioItemOf, findCurrentItem_of_none _ _ h, hlast]

/-- Witness for C4, the boundary scenario of the spec: one visual clip on
[0, 5) and one audio clip on [0, 8); at time 8 the audio clip is still
active under the tolerance and no visual clip is. -/
theorem activeClip_resolution_witness :
    currentVisualItemOf [sampleClip "V" 0 0 5, sampleClip "W" 1 0 8] 8 =
      none ∧
    currentAudioItemOf [sampleClip "V" 0 0 5, sampleClip "W" 1 0 8] 8 =
      some (sampleClip "W" 1 0 8) := by
  have hvis : visualItemsOf [sampleClip "V" 0 0 5, sampleClip "W" 1 0 8] =
      [sampleClip "V" 0 0 5] := by
    simp [visualItemsOf, sampleClip, List.insertionSort, List.orderedInsert]
  have haud : audioItemsOf [sampleClip "V" 0 0 5, sampleClip "W" 1 0 8] =
      [sampleClip "W" 1 0 8] := by
    simp [audioItemsOf, sampleClip, List.insertionSort, List.orderedInsert]
  have h := activeClip_resolution [sampleClip "V" 0 0 5, sampleClip "W" 1 0 8]
    8 (sampleClip "V" 0 0 5) (sampleClip "W" 1 0 8)
  constructor
  · refine (h.2.1 ?_ ?_).2 ?_
    · rw [hvis]
      intro i hi
      rcases List.mem_cons.mp hi with rfl | hi
      · rw [inInterval, endOf]
        norm_num [sampleClip]
      · cases hi
    · rw [hvis]
      rfl
    · rw [endOf]
      norm_num [sampleClip]
  · refine (h.2.2.2.2.1 ?_ ?_).1 ?_
    · rw [haud]
      intro i hi
      rcases List.mem_cons.mp hi with rfl | hi
      · rw [inInterval, endOf]
        norm_num [sampleClip]
      · cases hi
    · rw [haud]
      rfl
    · rw [endOf]
      norm_num [sampleClip]

/-- Identity of a clip apart from its start time: all fields the repacking
of `removeFromTimeline` leaves untouched. -/
def clipKey (i : TimelineItem) : String × String × MediaItem × Nat × ℚ :=
  (i.id, i.mediaId, i.mediaItem, i.track, i.duration)

/-- Helper for C1: repacking yields a contiguous layout from the given
start. -/
lemma repackFrom_packed : ∀ (t : ℚ) (l : List TimelineItem),
    packedFrom t (repackFrom t l)
  | _, [] => trivial
  | t, x :: xs => ⟨rfl, repackFrom_packed (t + x.duration) xs⟩

/-- Helper for C1: repacking changes only start times. -/
lemma repackFrom_map_clipKey : ∀ (t : ℚ) (l : List TimelineItem),
    (repackFrom t l).map clipKey = l.map clipKey
  | _, [] => rfl
  | t, x :: xs => by
    simp only [repackFrom, List.map_cons, repackFrom_map_clipKey (t + x.duration) xs]
    rfl

/-- Helper for C1: repacking preserves track membership. -/
lemma repackFrom_track_eq : ∀ (t : ℚ) (l : List TimelineItem) (tr : Nat),
    (∀ x ∈ l, x.track = tr) → ∀ y ∈ repackFrom t l, y.track = tr
  | _, [], _, _ => by intro y hy; cases hy
  | t, x :: xs, tr, h => by
    intro y hy
    rcases List.mem_cons.mp hy with rfl | hy'
    · exact h x (List.mem_cons_self _ _)
    · exact repackFrom_track_eq (t + x.duration) xs tr
        (fun z hz => h z (List.mem_cons_of_mem _ hz)) y hy'

/-- Claim C1: on a state with distinct clip ids, removing a present clip
leaves the clips of its track packed contiguously from 0, in the stably
sorted-by-start-time order of the remaining clips of that track with all
fields except start times preserved, while the filtered view of every other
track is exactly unchanged. -/
theorem removeFromTimeline_spec (items : List TimelineItem) (tid : String)
    (c : TimelineItem) (otherTrack : Nat)
    (hfind : items.find? (fun i => i.id == tid) = some c)
    (hnd : NodupIds items) (ht' : otherTrack ≠ c.track) :
    packedFrom 0 ((removeFromTimeline items tid).filter
      (fun i => i.track == c.track)) ∧
    ((removeFromTimeline items tid).filter (fun i => i.track == c.track)).map
        clipKey =
      (List.insertionSort leStart ((items.filter (fun i => i.id != tid)).filter
        (fun i => i.track == c.track))).map clipKey ∧
    (List.insertionSort leStart ((items.filter (fun i => i.id != tid)).filter
      (fun i => i.track == c.track))).Perm
      ((items.filter (fun i => i.id != tid)).filter
        (fun i => i.track == c.track)) ∧
    List.Sorted leStart (List.insertionSort leStart
      ((items.filter (fun i => i.id != tid)).filter
        (fun i => i.track == c.track))) ∧
    (removeFromTimeline items tid).filter (fun i => i.track == otherTrack) =
      items.filter (fun i => i.track == otherTrack) := by
  have hcmem : c ∈ items := List.mem_of_find?_eq_some hfind
  have hcid : c.id = tid := by simpa using List.find?_some hfind
  have huniq : ∀ x ∈ items, x.id = tid → x = c := fun x hx hxid =>
    List.inj_on_of_nodup_map hnd hx hcmem (by rw [hxid, hcid])
  have hrm : removeFromTimeline items tid =
      (items.filter (fun i => i.id != tid)).filter
        (fun i => i.track != c.track) ++
      repackFrom 0 (List.insertionSort leStart
        ((items.filter (fun i => i.id != tid)).filter
          (fun i => i.track == c.track))) := by
    unfold removeFromTimeline
    rw [hfind]
  have hsame_track : ∀ x ∈ List.insertionSort leStart
      ((items.filter (fun i => i.id != tid)).filter
        (fun i => i.track == c.track)), x.track = c.track := by
    intro x hx
    have hx' := (List.mem_insertionSort leStart).mp hx
    have := List.of_mem_filter hx'
    simpa using this
  have hrepack_track : ∀ y ∈ repackFrom 0 (List.insertionSort leStart
      ((items.filter (fun i => i.id != tid)).filter
        (fun i => i.track == c.track))), y.track = c.track :=
    repackFrom_track_eq 0 _ c.track hsame_track
  have hothers : ∀ y ∈ (items.filter (fun i => i.id != tid)).filter
      (fun i => i.track != c.track), (y.track == c.track) = false := by
    intro y hy
    have := List.of_mem_filter hy
    simp only [bne_iff_ne, ne_eq] at this
    exact beq_eq_false_iff_ne.mpr this
  have hfilter_same : (removeFromTimeline items tid).filter
      (fun i => i.track == c.track) =
      repackFrom 0 (List.insertionSort leStart
        ((items.filter (fun i => i.id != tid)).filter
          (fun i => i.track == c.track))) := by
    rw [hrm, List.filter_append]
    rw [List.filter_eq_nil_iff.mpr (fun a ha => by simp [hothers a ha])]
    rw [List.filter_eq_self.mpr (fun a ha => by simp [hrepack_track a ha])]
    exact List.nil_append _
  have hother_inner : ((items.filter (fun i => i.id != tid)).filter
      (fun i => i.track != c.track)).filter (fun i => i.track == otherTrack) =
      items.filter (fun i => i.track == otherTrack) := by
    rw [List.filter_filter, List.filter_filter]
    apply List.filter_congr
    intro x hx
    by_cases hxt : x.track = otherTrack
    · have hxc : x.track ≠ c.track := by rw [hxt]; exact ht'
      have hxid : x.id ≠ tid := fun hid => by
        have hxe := huniq x hx hid
        rw [hxe] at hxc
        exact hxc rfl
      simp [hxt, hxid]
      exact ht'
    · have hb : (x.track == otherTrack) = false := beq_eq_false_iff_ne.mpr hxt
      simp [hb]
  have hrepack_other : ∀ a ∈ repackFrom 0 (List.insertionSort leStart
      ((items.filter (fun i => i.id != tid)).filter
        (fun i => i.track == c.track))), ¬ (a.track == otherTrack) = true := by
    intro a ha
    simp only [beq_iff_eq, hrepack_track a ha]
    exact fun h => ht' h.symm
  refine ⟨?_, ?_, List.perm_insertionSort leStart _,
    List.sorted_insertionSort leStart _, ?_⟩
  · rw [hfilter_same]
    exact repackFrom_packed 0 _
  · rw [hfilter_same]
    exact repackFrom_map_clipKey 0 _
  · rw [hrm, List.filter_append, hother_inner,
      List.filter_eq_nil_iff.mpr hrepack_other]
    exact List.append_nil _

/-- Witness for C1, the spec scenario: clips A, B, C of duration 4 on track
0 and D on track 1; removing B leaves track 0 packed as A at 0 and C at 4
while track 1 is unchanged. -/
theorem removeFromTimeline_spec_witness :
    ([sampleClip "A" 0 0 4, sampleClip "B" 0 4 4, sampleClip "C" 0 8 4,
        sampleClip "D" 1 0 8].find? (fun i => i.id == "B") =
      some (sampleClip "B" 0 4 4)) ∧
    NodupIds [sampleClip "A" 0 0 4, sampleClip "B" 0 4 4,
      sampleClip "C" 0 8 4, sampleClip "D" 1 0 8] ∧
    (1 ≠ (sampleClip "B" 0 4 4).track) ∧
    (packedFrom 0 ((removeFromTimeline [sampleClip "A" 0 0 4,
        sampleClip "B" 0 4 4, sampleClip "C" 0 8 4, sampleClip "D" 1 0 8]
        "B").filter (fun i => i.track == (sampleClip "B" 0 4 4).track)) ∧
      ((removeFromTimeline [sampleClip "A" 0 0 4, sampleClip "B" 0 4 4,
          sampleClip "C" 0 8 4, sampleClip "D" 1 0 8] "B").filter
          (fun i => i.track == (sampleClip "B" 0 4 4).track)).map clipKey =
        (List.insertionSort leStart (([sampleClip "A" 0 0 4,
          sampleClip "B" 0 4 4, sampleClip "C" 0 8 4,
          sampleClip "D" 1 0 8].filter (fun i => i.id != "B")).filter
          (fun i => i.track == (sampleClip "B" 0 4 4).track))).map clipKey ∧
      (List.insertionSort leStart (([sampleClip "A" 0 0 4,
        sampleClip "B" 0 4 4, sampleClip "C" 0 8 4,
        sampleClip "D" 1 0 8].filter (fun i => i.id != "B")).filter
        (fun i => i.track == (sampleClip "B" 0 4 4).track))).Perm
        (([sampleClip "A" 0 0 4, sampleClip "B" 0 4 4, sampleClip "C" 0 8 4,
          sampleClip "D" 1 0 8].filter (fun i => i.id != "B")).filter
          (fun i => i.track == (sampleClip "B" 0 4 4).track)) ∧
      List.Sorted leStart (List.insertionSort leStart
        (([sampleClip "A" 0 0 4, sampleClip "B" 0 4 4, sampleClip "C" 0 8 4,
          sampleClip "D" 1 0 8].filter (fun i => i.id != "B")).filter
          (fun i => i.track == (sampleClip "B" 0 4 4).track))) ∧
      (removeFromTimeline [sampleClip "A" 0 0 4, sampleClip "B" 0 4 4,
          sampleClip "C" 0 8 4, sampleClip "D" 1 0 8] "B").filter
          (fun i => i.track == 1) =
        [sampleClip "A" 0 0 4, sampleClip "B" 0 4 4, sampleClip "C" 0 8 4,
          sampleClip "D" 1 0 8].filter (fun i => i.track == 1)) :=
  ⟨rfl, by unfold NodupIds; decide, by decide,
    removeFromTimeline_spec
      [sampleClip "A" 0 0 4, sampleClip "B" 0 4 4, sampleClip "C" 0 8 4,
        sampleClip "D" 1 0 8] "B" (sampleClip "B" 0 4 4) 1 rfl
      (by unfold NodupIds; decide) (by decide)⟩

end Vimagine
